import Mathlib

/-!
Verification of the criminal-expungement analysis notebooks.

The repository consists of a census-cleaning notebook (pandas) and two
felony-modeling notebooks (pyspark) over Virginia court records.  This file
gives a shallow embedding of the dataframe transformations those notebooks
perform — race-name normalization, charge-type filtering and label
derivation, the skip-on-invalid categorical encoding pipeline, the
cross-tabulation of felony rates by race, and the census year/age-group
cleaning — and proves the stated properties about them.
-/

namespace CrimExp

/-! ### Literal-pattern text replacement

The notebooks normalize race names with `F.regexp_replace`; every pattern
used is a regex-escaped literal, so the operation is literal substring
replacement of all non-overlapping occurrences, scanning left to right and
not rescanning replacement text (Java `replaceAll` semantics). -/

/-- Replace every non-overlapping occurrence of `pat` by `rep` in a
character list, scanning left to right.  The `Nat` argument is fuel,
instantiated with the length of the subject so the recursion is
structural; it is never exhausted on a nonempty subject. -/
def replChars (pat rep : List Char) : Nat → List Char → List Char
  | _, [] => []
  | 0, s => s
  | fuel + 1, c :: rest =>
    if !pat.isEmpty && pat.isPrefixOf (c :: rest) then
      rep ++ replChars pat rep fuel ((c :: rest).drop pat.length)
    else
      c :: replChars pat rep fuel rest

/-- `replaceAll s pat rep` replaces all occurrences of the literal pattern
`pat` in `s` by `rep`, as `F.regexp_replace(s, escaped-literal, rep)` does. -/
def replaceAll (s pat rep : String) : String :=
  ⟨replChars pat.data rep.data s.data.length s.data⟩

/-- The race-normalization chain: the six `regexp_replace` rules producing
the `RaceClean` column, in the order the notebooks apply them. -/
def raceClean (s : String) : String :=
  let s1 := replaceAll s "(Non-Hispanic)" ""
  let s2 := replaceAll s1 " Caucasian" ""
  let s3 := replaceAll s2 "Asian Or" "Asian or"
  let s4 := replaceAll s3 " (Includes Not Applicable, Unknown)" ""
  let s5 := replaceAll s4 "(Includes Not Applicable, Unknown)" ""
  replaceAll s5 "Other" "Unknown"

/-! ### Court records

One row per charge.  Only the columns the modeling pipeline reads are
modelled: `Race` (raw), the charge-type column (`ChargeType` in the circuit
notebook, `CaseType` in the district notebook), `CodeSection`, the sex
column (`Sex` / `Gender`), and the jurisdiction column `fips`.  All are
nullable strings, as in the CSV schema. -/

structure CourtRow where
  race : Option String
  chargeType : Option String
  codeSection : Option String
  sex : Option String
  fips : Option String
deriving DecidableEq

/-- The derived `RaceClean` column: `regexp_replace` returns null on null
input, so the chain maps a null `Race` to a null `RaceClean`. -/
def raceCleanCol (r : CourtRow) : Option String :=
  r.race.map raceClean

/-- The derived binary label: `F.when(ChargeType == 'Felony', 1).otherwise(0)`.
A null charge type compares as null, which falls through to `otherwise`. -/
def felonyCol (r : CourtRow) : Nat :=
  if r.chargeType = some "Felony" then 1 else 0

/-- The label-derivation row filter:
`data = df.filter(df.ChargeType.isin(['Misdemeanor', 'Felony']))`.
`isin` on a null value yields null, which the filter drops. -/
def labelStep (rows : List CourtRow) : List CourtRow :=
  rows.filter fun r =>
    decide (r.chargeType = some "Misdemeanor" ∨ r.chargeType = some "Felony")

/-- C1: a row survives the label-derivation step iff its charge-type field
is exactly `"Misdemeanor"` or `"Felony"` (case-sensitive), and a retained
row's derived label is 1 exactly when the charge-type is `"Felony"` and 0
otherwise; rows with any other charge-type (e.g. `"Dismissed"`) are
excluded from the modeling set without error. -/
theorem labelStep_mem_iff (rows : List CourtRow) (r : CourtRow) :
    (r ∈ labelStep rows ↔
      r ∈ rows ∧ (r.chargeType = some "Misdemeanor" ∨ r.chargeType = some "Felony")) ∧
    (felonyCol r = 1 ↔ r.chargeType = some "Felony") ∧
    (felonyCol r = 0 ↔ r.chargeType ≠ some "Felony") := by
  refine ⟨?_, ?_, ?_⟩
  · simp [labelStep, List.mem_filter]
  · unfold felonyCol
    by_cases h : r.chargeType = some "Felony" <;> simp [h]
  · unfold felonyCol
    by_cases h : r.chargeType = some "Felony" <;> simp [h]

/-- Concrete instantiation of `labelStep_mem_iff` on the spec's scenario
rows: a Felony row gets label 1, a Misdemeanor row label 0, and a
Dismissed row is excluded entirely. -/
theorem labelStep_mem_iff_witness :
    (⟨some "White", some "Felony", some "18.2-248.1", some "Male", some "51059"⟩ : CourtRow) ∈
      labelStep [⟨some "White", some "Felony", some "18.2-248.1", some "Male", some "51059"⟩,
                 ⟨some "White", some "Dismissed", some "18.2-248.1", some "Male", some "51059"⟩] ∧
    felonyCol ⟨some "White", some "Felony", some "18.2-248.1", some "Male", some "51059"⟩ = 1 ∧
    (⟨some "White", some "Dismissed", some "18.2-248.1", some "Male", some "51059"⟩ : CourtRow) ∉
      labelStep [⟨some "White", some "Felony", some "18.2-248.1", some "Male", some "51059"⟩,
                 ⟨some "White", some "Dismissed", some "18.2-248.1", some "Male", some "51059"⟩] := by
  refine ⟨?_, ?_, ?_⟩
  · exact (labelStep_mem_iff _ _).1.mpr ⟨by decide, Or.inr rfl⟩
  · exact (labelStep_mem_iff
      [⟨some "White", some "Felony", some "18.2-248.1", some "Male", some "51059"⟩] _).2.1.mpr rfl
  · intro hmem
    have h := ((labelStep_mem_iff _ _).1.mp hmem).2
    rcases h with h | h <;> simp at h

/-- C3: the race-normalization chain is idempotent on the fixed example
set: applying it twice to each of the three sample raw strings yields the
same result as applying it once, namely `"White"`, `"Black"`, and
`"Asian or Pacific Islander"`. -/
theorem raceClean_idempotent_examples :
    raceClean (raceClean "White Caucasian(Non-Hispanic)")
        = raceClean "White Caucasian(Non-Hispanic)" ∧
    raceClean "White Caucasian(Non-Hispanic)" = "White" ∧
    raceClean (raceClean "Black(Non-Hispanic)")
        = raceClean "Black(Non-Hispanic)" ∧
    raceClean "Black(Non-Hispanic)" = "Black" ∧
    raceClean (raceClean "Asian Or Pacific Islander")
        = raceClean "Asian Or Pacific Islander" ∧
    raceClean "Asian Or Pacific Islander" = "Asian or Pacific Islander" := by
  decide

/-- C4: the race normalizer does not collapse whitespace variants: the raw
strings `"White Caucasian (Non-Hispanic)"` and
`"White Caucasian(Non-Hispanic)"` differ only in incidental whitespace,
yet normalize to the distinct strings `"White "` (trailing space) and
`"White"`. -/
theorem raceClean_whitespace_not_collapsed :
    raceClean "White Caucasian (Non-Hispanic)" = "White " ∧
    raceClean "White Caucasian(Non-Hispanic)" = "White" ∧
    ("White " : String) ≠ "White" := by
  decide

/-! ### Categorical encoding pipeline (C2)

The circuit notebook builds a `Pipeline` of `StringIndexer` stages (one per
categorical predictor, each with `handleInvalid = "skip"`), `OneHotEncoder`
stages, and a `VectorAssembler` (also `handleInvalid = "skip"`).  Fitting a
pipeline fits each indexer on the data as transformed by the previous
fitted stages; an indexer's transform with the skip policy drops every row
whose input value is null or outside the fitted vocabulary.  The one-hot
stages and the assembler drop nothing further, since indexer outputs are
always valid indices.  Row survival through the pipeline is therefore the
sequential composition of the per-column skip filters. -/

/-- The vocabulary a `StringIndexer` fits: the distinct non-null values of
its input column over the fitting data. -/
def fitVocab (col : CourtRow → Option String) (rows : List CourtRow) : List String :=
  (rows.filterMap col).dedup

/-- One indexer transform with `handleInvalid = "skip"`: keep exactly the
rows whose column value is non-null and inside the vocabulary. -/
def skipStage (col : CourtRow → Option String) (vocab : List String)
    (rows : List CourtRow) : List CourtRow :=
  rows.filter fun r =>
    match col r with
    | some v => decide (v ∈ vocab)
    | none => false

/-- Fit-and-transform of a chain of indexer stages on one dataset, as
`Pipeline.fit` followed by `transform` on the same data: each stage's
vocabulary is fit on the rows surviving the earlier stages. -/
def fitTransformStages (cols : List (CourtRow → Option String))
    (rows : List CourtRow) : List CourtRow :=
  match cols with
  | [] => rows
  | c :: cs => fitTransformStages cs (skipStage c (fitVocab c rows) rows)

def sexCol (r : CourtRow) : Option String := r.sex

def codeSectionCol (r : CourtRow) : Option String := r.codeSection

def fipsCol (r : CourtRow) : Option String := r.fips

/-- The categorical predictor columns of the circuit notebook's pipeline,
in stage order: `Sex`, `RaceClean`, `CodeSection`, `fips`. -/
def circuitStageCols : List (CourtRow → Option String) :=
  [sexCol, raceCleanCol, codeSectionCol, fipsCol]

/-- The rows reaching the assembled feature-vector dataset of the circuit
notebook's pipeline. -/
def circuitEncodedRows (rows : List CourtRow) : List CourtRow :=
  fitTransformStages circuitStageCols rows

theorem skipStage_fitVocab_eq_filter (col : CourtRow → Option String)
    (rows : List CourtRow) :
    skipStage col (fitVocab col rows) rows
      = rows.filter fun r => (col r).isSome := by
  unfold skipStage
  refine List.filter_congr ?_
  intro r hr
  cases hcol : col r with
  | none => simp
  | some v =>
    have hv : v ∈ fitVocab col rows :=
      List.mem_dedup.mpr (List.mem_filterMap.mpr ⟨r, hr, hcol⟩)
    simp [hv]

theorem fitTransformStages_eq_filter (cols : List (CourtRow → Option String))
    (rows : List CourtRow) :
    fitTransformStages cols rows
      = rows.filter fun r => cols.all fun c => (c r).isSome := by
  induction cols generalizing rows with
  | nil => simp [fitTransformStages]
  | cons c cs ih =>
    unfold fitTransformStages
    rw [skipStage_fitVocab_eq_filter, ih, List.filter_filter]
    refine List.filter_congr ?_
    intro r _
    simp [Bool.and_comm]

/-- Membership of a value in the full-data vocabulary of its own column. -/
theorem mem_fitVocab_of_mem (col : CourtRow → Option String)
    (rows : List CourtRow) (r : CourtRow) (v : String)
    (hr : r ∈ rows) (hv : col r = some v) : v ∈ fitVocab col rows :=
  List.mem_dedup.mpr (List.mem_filterMap.mpr ⟨r, hr, hv⟩)

/-- C2: a row presented to the circuit notebook's encoding stage survives
to the assembled feature-vector dataset iff every one of its categorical
predictor values (sex, normalized race, charge code, jurisdiction) is
non-missing and present in the vocabulary built during index-fitting; the
number of surviving rows equals the total minus the number of rows with
any missing or out-of-vocabulary categorical field, and no such row causes
an error (the skip policy is total). -/
theorem circuitEncoded_mem_iff (rows : List CourtRow) (r : CourtRow) :
    (r ∈ circuitEncodedRows rows ↔
      r ∈ rows ∧ ∀ c ∈ circuitStageCols, ∃ v, c r = some v ∧ v ∈ fitVocab c rows) ∧
    (circuitEncodedRows rows).length
        + (rows.filter fun x => !circuitStageCols.all fun c => (c x).isSome).length
      = rows.length := by
  have heq := fitTransformStages_eq_filter circuitStageCols rows
  constructor
  · rw [circuitEncodedRows, heq]
    rw [List.mem_filter]
    constructor
    · rintro ⟨hr, hall⟩
      refine ⟨hr, ?_⟩
      intro c hc
      have hsome : (c r).isSome := by
        have := (List.all_eq_true.mp hall) c hc
        exact this
      rcases Option.isSome_iff_exists.mp hsome with ⟨v, hv⟩
      exact ⟨v, hv, mem_fitVocab_of_mem c rows r v hr hv⟩
    · rintro ⟨hr, hall⟩
      refine ⟨hr, ?_⟩
      refine List.all_eq_true.mpr ?_
      intro c hc
      rcases hall c hc with ⟨v, hv, _⟩
      simp [hv]
  · rw [circuitEncodedRows, heq]
    exact (List.length_eq_length_filter_add
      (fun x => circuitStageCols.all fun c => (c x).isSome)).symm

/-- Concrete instantiation of `circuitEncoded_mem_iff`: a fully populated
row survives the encoding pipeline while a row with a missing sex field is
dropped. -/
theorem circuitEncoded_mem_iff_witness :
    (⟨some "White", some "Felony", some "18.2-248.1", some "Male", some "51059"⟩ : CourtRow) ∈
      circuitEncodedRows
        [⟨some "White", some "Felony", some "18.2-248.1", some "Male", some "51059"⟩,
         ⟨some "White", some "Felony", some "18.2-248.1", none, some "51059"⟩] ∧
    (⟨some "White", some "Felony", some "18.2-248.1", none, some "51059"⟩ : CourtRow) ∉
      circuitEncodedRows
        [⟨some "White", some "Felony", some "18.2-248.1", some "Male", some "51059"⟩,
         ⟨some "White", some "Felony", some "18.2-248.1", none, some "51059"⟩] := by
  constructor
  · refine (circuitEncoded_mem_iff _ _).1.mpr ⟨by decide, ?_⟩
    intro c hc
    simp only [circuitStageCols, List.mem_cons, List.not_mem_nil, or_false] at hc
    rcases hc with rfl | rfl | rfl | rfl
    · exact ⟨"Male", rfl, by decide⟩
    · exact ⟨raceClean "White", rfl, by decide⟩
    · exact ⟨"18.2-248.1", rfl, by decide⟩
    · exact ⟨"51059", rfl, by decide⟩
  · intro hmem
    have h := ((circuitEncoded_mem_iff _ _).1.mp hmem).2 sexCol (by simp [circuitStageCols])
    rcases h with ⟨v, hv, _⟩
    simp [sexCol] at hv

/-! ### StringIndexer index assignment (C7) -/

/-- Modelled from the spec: the `StringIndexer` fitting algorithm itself is
pyspark library code and not part of this repository's sources; the spec
records the library convention the notebooks rely on — "index assignment
order is descending by frequency".  The fitted vocabulary lists the
distinct observed values sorted by descending frequency in the fitting
data, and a value's index is its position in that list. -/
def indexerVocab (vals : List String) : List String :=
  vals.dedup.mergeSort fun a b => decide (vals.count b ≤ vals.count a)

/-- The index a fitted `StringIndexer` assigns to an observed value: its
position in the frequency-sorted vocabulary. -/
def indexerIndex (vals : List String) (v : String) : Nat :=
  (indexerVocab vals).indexOf v

theorem indexerVocab_perm_dedup (vals : List String) :
    (indexerVocab vals).Perm vals.dedup :=
  List.mergeSort_perm vals.dedup _

theorem indexerVocab_sorted (vals : List String) :
    (indexerVocab vals).Pairwise fun a b => vals.count b ≤ vals.count a := by
  have h := @List.sorted_mergeSort String
      (fun a b : String => decide (vals.count b ≤ vals.count a))
      (fun a b c hab hbc => by
        simp only [decide_eq_true_eq] at hab hbc ⊢
        omega)
      (fun a b => by
        simp only [Bool.or_eq_true, decide_eq_true_eq]
        omega)
      vals.dedup
  refine h.imp ?_
  intro a b hab
  simpa using hab

/-- C7: the string indexer assigns dense indices to the distinct observed
values in descending order of frequency in the fitting data: the fitted
vocabulary is a permutation of the distinct observed values, every
assigned index is below the number of distinct values, and whenever value
`v` occurs strictly more often than value `w`, the index of `v` is
strictly below the index of `w`.  This is the ordering the notebooks'
coefficient-to-feature-name reconstruction relies on. -/
theorem indexerIndex_freq_order (vals : List String) (v w : String)
    (hv : v ∈ vals) (hw : w ∈ vals) (hfreq : vals.count w < vals.count v) :
    (indexerVocab vals).Perm vals.dedup ∧
    indexerIndex vals v < vals.dedup.length ∧
    indexerIndex vals v < indexerIndex vals w := by
  have hperm := indexerVocab_perm_dedup vals
  have hlen : (indexerVocab vals).length = vals.dedup.length := hperm.length_eq
  have hvmem : v ∈ indexerVocab vals :=
    (hperm.mem_iff).mpr (List.mem_dedup.mpr hv)
  have hwmem : w ∈ indexerVocab vals :=
    (hperm.mem_iff).mpr (List.mem_dedup.mpr hw)
  have hvi : List.indexOf v (indexerVocab vals) < (indexerVocab vals).length :=
    List.indexOf_lt_length.mpr hvmem
  have hwi : List.indexOf w (indexerVocab vals) < (indexerVocab vals).length :=
    List.indexOf_lt_length.mpr hwmem
  refine ⟨hperm, by rw [indexerIndex, ← hlen]; exact hvi, ?_⟩
  have hne : v ≠ w := by
    intro hvw
    rw [hvw] at hfreq
    omega
  have hsorted := (List.pairwise_iff_getElem).mp (indexerVocab_sorted vals)
  by_contra hle
  push_neg at hle
  have hnei : indexerIndex vals w ≠ indexerIndex vals v := by
    intro hiw
    exact hne ((List.indexOf_inj hvmem hwmem).mp hiw.symm)
  have hlt : indexerIndex vals w < indexerIndex vals v :=
    lt_of_le_of_ne hle hnei
  have hrel := hsorted (List.indexOf w (indexerVocab vals))
      (List.indexOf v (indexerVocab vals)) hwi hvi hlt
  rw [List.getElem_indexOf hwi, List.getElem_indexOf hvi] at hrel
  omega

/-- Concrete instantiation of `indexerIndex_freq_order`: fitting on
`["b", "a", "b"]`, the more frequent value `"b"` receives a strictly
smaller index than `"a"`. -/
theorem indexerIndex_freq_order_witness :
    (indexerVocab ["b", "a", "b"]).Perm (["b", "a", "b"] : List String).dedup ∧
    indexerIndex ["b", "a", "b"] "b" < (["b", "a", "b"] : List String).dedup.length ∧
    indexerIndex ["b", "a", "b"] "b" < indexerIndex ["b", "a", "b"] "a" :=
  indexerIndex_freq_order ["b", "a", "b"] "b" "a" (by decide) (by decide) (by decide)

/-! ### Cross-tabulation of felony rates by normalized race (C6, C9)

`fel = data.groupBy('RaceClean').agg(F.count(data.RaceClean).alias('count'),
F.sum(data.Felony).alias('n_felonies'))` followed by
`fel.withColumn('percent', fel['n_felonies']/fel['count'])`.
`F.count` over a column counts only its non-null values — so the group
whose key is null counts 0 even when it holds rows — while `F.sum` over
the never-null `Felony` column sums all of them.  Spark's division yields
null on a zero divisor (ANSI mode off) instead of raising. -/

/-- One output row of the cross-tabulation. -/
structure CTRow where
  key : Option String
  cnt : Nat
  nFelonies : Nat
  percent : Option ℚ
deriving DecidableEq

/-- The aggregation for one group: rows whose `RaceClean` equals the key;
`cnt` counts the non-null `RaceClean` values among them, `nFelonies` sums
their `Felony` labels, and `percent` is their null-on-zero quotient. -/
def ctGroup (rows : List CourtRow) (k : Option String) : CTRow :=
  let grp := rows.filter fun r => decide (raceCleanCol r = k)
  let c := (grp.filter fun r => (raceCleanCol r).isSome).length
  let nf := (grp.map felonyCol).sum
  ⟨k, c, nf, if c = 0 then none else some ((nf : ℚ) / (c : ℚ))⟩

/-- The full cross-tabulation: one output row per distinct `RaceClean`
value occurring in the data (null included when present). -/
def crossTab (rows : List CourtRow) : List CTRow :=
  ((rows.map raceCleanCol).dedup).map (ctGroup rows)

/-- Sample rows used to instantiate the cross-tabulation theorems. -/
def rowWhiteFelony : CourtRow :=
  ⟨some "White", some "Felony", some "18.2-248.1", some "Male", some "51059"⟩

def rowNullRace : CourtRow :=
  ⟨none, some "Felony", some "18.2-248.1", some "Male", some "51059"⟩

def rowNullRaceF : CourtRow :=
  ⟨none, some "Felony", some "18.2-248.1", some "Female", some "51059"⟩

/-- C6: in the cross-tabulation by normalized race, every group's reported
rate equals its felony count divided by its row count, and whenever the
count is 0 (in particular for the null grouping key) the rate is null
rather than an error: the computation is total on every group, empty
groups included. -/
theorem crossTab_percent_eq (rows : List CourtRow) (g : CTRow)
    (hg : g ∈ crossTab rows) :
    g.percent = (if g.cnt = 0 then none else some ((g.nFelonies : ℚ) / (g.cnt : ℚ))) ∧
    (g.cnt = 0 → g.percent = none) := by
  rcases List.mem_map.mp hg with ⟨k, _, rfl⟩
  have h : (ctGroup rows k).percent
      = (if (ctGroup rows k).cnt = 0 then none
         else some (((ctGroup rows k).nFelonies : ℚ) / ((ctGroup rows k).cnt : ℚ))) := rfl
  refine ⟨h, ?_⟩
  intro hc
  rw [h, if_pos hc]

/-- Concrete instantiation of `crossTab_percent_eq`: in a two-row dataset
with one `"White"` felony row and one null-race felony row, the `"White"`
group reports rate 1 and the null-key group reports a null rate. -/
theorem crossTab_percent_eq_witness :
    (ctGroup [rowWhiteFelony, rowNullRace] (some "White")).percent = some 1 ∧
    (ctGroup [rowWhiteFelony, rowNullRace] none).percent = none := by
  have hk1 : some "White" ∈ (([rowWhiteFelony, rowNullRace]).map raceCleanCol).dedup := by
    decide
  have hk2 : (none : Option String) ∈ (([rowWhiteFelony, rowNullRace]).map raceCleanCol).dedup := by
    decide
  constructor
  · have h := (crossTab_percent_eq [rowWhiteFelony, rowNullRace] _
      (List.mem_map_of_mem (ctGroup [rowWhiteFelony, rowNullRace]) hk1)).1
    have hcnt : (ctGroup [rowWhiteFelony, rowNullRace] (some "White")).cnt = 1 := by decide
    have hnf : (ctGroup [rowWhiteFelony, rowNullRace] (some "White")).nFelonies = 1 := by decide
    rw [h, hcnt, hnf]
    norm_num
  · have h := (crossTab_percent_eq [rowWhiteFelony, rowNullRace] _
      (List.mem_map_of_mem (ctGroup [rowWhiteFelony, rowNullRace]) hk2)).2
    exact h (by decide)

/-- C9: the cross-tabulation group whose `RaceClean` key is null reports
count 0 no matter how many rows fall into it, because `F.count` aggregates
the grouping column itself and ignores nulls; its `n_felonies` is still
the sum of the `Felony` label over those rows (and so can be positive),
and consequently its rate is null even when the group is non-empty. -/
theorem crossTab_null_group (rows : List CourtRow) (g : CTRow)
    (hg : g ∈ crossTab rows) (hk : g.key = none) :
    g.cnt = 0 ∧ g.percent = none ∧
    g.nFelonies = ((rows.filter fun r => (raceCleanCol r).isNone).map felonyCol).sum := by
  rcases List.mem_map.mp hg with ⟨k, _, rfl⟩
  have hkey : k = none := hk
  subst hkey
  have hcnt : ((rows.filter fun r => decide (raceCleanCol r = none)).filter
      fun r => (raceCleanCol r).isSome) = [] := by
    rw [List.filter_filter]
    refine List.filter_eq_nil_iff.mpr ?_
    intro r _
    cases h : raceCleanCol r <;> simp [h]
  have hfilt : (rows.filter fun r => decide (raceCleanCol r = none))
      = rows.filter fun r => (raceCleanCol r).isNone := by
    refine List.filter_congr ?_
    intro r _
    cases h : raceCleanCol r <;> simp [h]
  refine ⟨?_, ?_, ?_⟩
  · simp only [ctGroup, hcnt]
    rfl
  · simp only [ctGroup, hcnt]
    rfl
  · simp only [ctGroup, hfilt]

/-- Concrete instantiation of `crossTab_null_group`: two null-race felony
rows form a non-empty null-key group with count 0, two felonies, and a
null rate. -/
theorem crossTab_null_group_witness :
    ctGroup [rowNullRace, rowNullRaceF] none ∈ crossTab [rowNullRace, rowNullRaceF] ∧
    (ctGroup [rowNullRace, rowNullRaceF] none).cnt = 0 ∧
    (ctGroup [rowNullRace, rowNullRaceF] none).percent = none ∧
    (ctGroup [rowNullRace, rowNullRaceF] none).nFelonies = 2 := by
  have hk : (none : Option String) ∈ (([rowNullRace, rowNullRaceF]).map raceCleanCol).dedup := by
    decide
  have hmem : ctGroup [rowNullRace, rowNullRaceF] none ∈ crossTab [rowNullRace, rowNullRaceF] :=
    List.mem_map_of_mem (ctGroup [rowNullRace, rowNullRaceF]) hk
  have h := crossTab_null_group _ _ hmem rfl
  refine ⟨hmem, h.1, h.2.1, ?_⟩
  rw [h.2.2]
  decide

/-! ### Which dataset the printed classification metrics summarize (C5)

Both modeling notebooks fit their pipeline and print metrics from
`model.stages[-1].summary`, the `LogisticRegressionTrainingSummary`, which
by construction summarizes the dataset the model was fit on.  The circuit
notebook additionally executes
`train, test = data.randomSplit([0.9, 0.1], seed=34)` beforehand, but then
fits with `pipeline.fit(data)` and never touches `train` or `test`. -/

/-- Which dataframe a step of a notebook refers to: the full labeled
dataset, or the 90% / 10% halves of a random split of it. -/
inductive DataRef
  | full
  | train
  | test
deriving DecidableEq

/-- The dataflow of one logistic-regression notebook: whether a
train/test split was created, which dataset the model was fit on, and
which dataset the printed metrics are computed over. -/
structure LRRun where
  splitCreated : Bool
  fitData : DataRef
  metricsSource : DataRef

/-- A model's training summary reports metrics computed over the dataset
the model was fit on. -/
def trainingSummarySource (fitData : DataRef) : DataRef := fitData

/-- The circuit notebook: `randomSplit([0.9, 0.1], 34)` is executed, the
model is fit on the full `data`, and the printed area-under-ROC, accuracy,
weighted precision and weighted recall are read off
`model.stages[-1].summary`. -/
def circuitRun : LRRun :=
  ⟨true, DataRef.full, trainingSummarySource DataRef.full⟩

/-- The district notebook: no split is created, the model is fit on the
full `data`, and the metrics are read off the training summary. -/
def districtRun : LRRun :=
  ⟨false, DataRef.full, trainingSummarySource DataRef.full⟩

/-- C5 counterexample: the claim that a beforehand-created train/test
split implies the reported metrics are computed over held-out data rather
than the fitting data is false for the circuit notebook, which creates a
fixed-seed 90/10 split yet fits on the entire dataset and reports the
training summary's metrics over that same dataset. -/
theorem circuit_metrics_not_heldout :
    ¬ (circuitRun.splitCreated = true → circuitRun.metricsSource ≠ circuitRun.fitData) := by
  decide

/-- C5 (amended): in both notebooks the reported classification metrics
come from the model's training summary and are therefore computed over
the very data the model was fit on — the full dataset — regardless of
whether a split was created; the circuit notebook's fixed-seed 90/10
split is created but never used for fitting or evaluation. -/
theorem metrics_over_fit_data :
    circuitRun.metricsSource = trainingSummarySource circuitRun.fitData ∧
    circuitRun.fitData = DataRef.full ∧
    circuitRun.splitCreated = true ∧
    districtRun.metricsSource = trainingSummarySource districtRun.fitData ∧
    districtRun.fitData = DataRef.full ∧
    districtRun.splitCreated = false := by
  decide

/-! ### Census cleaning (C8, C10)

`census_clean = census[(census['AGEGRP']==0) & (census['YEAR'] >= 3)].copy()`,
then `census_clean['YEAR'] = np.select(conditions, choices)` with the ten
conditions `YEAR == 3 .. YEAR == 12` and choices `2010 .. 2019`, then
`census_clean.drop(['SUMLEV', 'AGEGRP'], axis=1)`.  The data dictionary
cited in the notebook gives the `YEAR` code domain 1–12, and the
notebook's own `census_clean['YEAR'].unique()` check shows codes 3–12
after the filter. -/

/-- A raw census record.  Besides the columns the cleaning reads
(`SUMLEV`, `YEAR`, `AGEGRP`), the identifying columns are kept explicit
and the remaining population-estimate columns are carried as a uniform
payload list the cleaning never touches. -/
structure CensusRow where
  sumlev : Nat
  state : Nat
  county : Nat
  stname : String
  ctyname : String
  year : Nat
  agegrp : Nat
  tot_pop : Nat
  popFields : List Nat
deriving DecidableEq

/-- A cleaned census record: the same columns with `SUMLEV` and `AGEGRP`
dropped. -/
structure CensusCleanRow where
  state : Nat
  county : Nat
  stname : String
  ctyname : String
  year : Nat
  tot_pop : Nat
  popFields : List Nat
deriving DecidableEq

/-- The ten `np.select` conditions, in order: `YEAR == 3`, …, `YEAR == 12`. -/
def yearConditions (y : Nat) : List Bool :=
  [y == 3, y == 4, y == 5, y == 6, y == 7, y == 8, y == 9, y == 10, y == 11, y == 12]

/-- The ten `np.select` choices, in order. -/
def yearChoices : List Nat :=
  [2010, 2011, 2012, 2013, 2014, 2015, 2016, 2017, 2018, 2019]

/-- `np.select`: the choice of the first condition that holds, with
default 0 when none does. -/
def npSelect : List Bool → List Nat → Nat
  | true :: _, c :: _ => c
  | false :: bs, _ :: cs => npSelect bs cs
  | _, _ => 0

/-- The `YEAR` recode applied to the filtered table. -/
def recodeYear (y : Nat) : Nat :=
  npSelect (yearConditions y) yearChoices

/-- The per-record cleaning: recode `YEAR`, keep every other retained
column unchanged, drop `SUMLEV` and `AGEGRP`. -/
def cleanRow (r : CensusRow) : CensusCleanRow :=
  ⟨r.state, r.county, r.stname, r.ctyname, recodeYear r.year, r.tot_pop, r.popFields⟩

/-- The census-cleaning pipeline: filter to `AGEGRP == 0` and `YEAR >= 3`,
recode `YEAR`, drop the `SUMLEV` and `AGEGRP` columns. -/
def census_clean (census : List CensusRow) : List CensusCleanRow :=
  (census.filter fun r => decide (r.agegrp = 0 ∧ 3 ≤ r.year)).map cleanRow

theorem recodeYear_eq_add (y : Nat) (h3 : 3 ≤ y) (h12 : y ≤ 12) :
    recodeYear y = y + 2007 := by
  interval_cases y <;> rfl

/-- C8: a raw census record appears in the cleaned output iff its
`AGEGRP` field is 0 and its `YEAR` code is at least 3, and every output
record carries the original code plus 2007 as its `YEAR` (codes 3–12 give
calendar years 2010–2019) with all other retained fields unchanged; the
`SUMLEV` and `AGEGRP` columns are removed (the output record type does
not carry them). -/
theorem census_clean_mem_iff (census : List CensusRow) (s : CensusCleanRow)
    (hdom : ∀ r ∈ census, 1 ≤ r.year ∧ r.year ≤ 12) :
    s ∈ census_clean census ↔
      ∃ r ∈ census, r.agegrp = 0 ∧ 3 ≤ r.year ∧ s = cleanRow r ∧
        s.year = r.year + 2007 ∧ s.state = r.state ∧ s.county = r.county ∧
        s.stname = r.stname ∧ s.ctyname = r.ctyname ∧ s.tot_pop = r.tot_pop ∧
        s.popFields = r.popFields := by
  constructor
  · intro hs
    rcases List.mem_map.mp hs with ⟨r, hr, rfl⟩
    rcases List.mem_filter.mp hr with ⟨hrc, hcond⟩
    have hcond' := of_decide_eq_true hcond
    refine ⟨r, hrc, hcond'.1, hcond'.2, rfl, ?_, rfl, rfl, rfl, rfl, rfl, rfl⟩
    have h12 := (hdom r hrc).2
    show recodeYear r.year = r.year + 2007
    exact recodeYear_eq_add r.year hcond'.2 h12
  · rintro ⟨r, hrc, hag, hy3, rfl, _⟩
    refine List.mem_map.mpr ⟨r, ?_, rfl⟩
    exact List.mem_filter.mpr ⟨hrc, decide_eq_true ⟨hag, hy3⟩⟩

/-- Concrete instantiation of `census_clean_mem_iff`: a Fairfax County
total-age record with year code 12 maps to calendar year 2019 and is
retained, with all other fields unchanged. -/
theorem census_clean_mem_iff_witness :
    cleanRow ⟨50, 51, 59, "Virginia", "Fairfax County", 12, 0, 1147532, [7, 8]⟩ ∈
      census_clean [⟨50, 51, 59, "Virginia", "Fairfax County", 12, 0, 1147532, [7, 8]⟩,
                    ⟨50, 51, 59, "Virginia", "Fairfax County", 2, 0, 1000000, [7, 8]⟩] ∧
    (cleanRow ⟨50, 51, 59, "Virginia", "Fairfax County", 12, 0, 1147532, [7, 8]⟩).year = 2019 := by
  constructor
  · refine (census_clean_mem_iff
      [⟨50, 51, 59, "Virginia", "Fairfax County", 12, 0, 1147532, [7, 8]⟩,
       ⟨50, 51, 59, "Virginia", "Fairfax County", 2, 0, 1000000, [7, 8]⟩]
      (cleanRow ⟨50, 51, 59, "Virginia", "Fairfax County", 12, 0, 1147532, [7, 8]⟩)
      (by decide)).mpr ?_
    exact ⟨⟨50, 51, 59, "Virginia", "Fairfax County", 12, 0, 1147532, [7, 8]⟩,
      by decide, rfl, by decide, rfl, by decide, rfl, rfl, rfl, rfl, rfl, rfl⟩
  · decide

/-- C10: the default branch of the ten-way `np.select` year recode (which
would assign `YEAR = 0`) is unreachable on the cleaned table: for any raw
table whose `YEAR` codes lie in the documented 1–12 domain, every record
retained by the `AGEGRP == 0 ∧ YEAR ≥ 3` filter has its code in 3–12,
exactly one of the ten conditions holds for it, and every output `YEAR`
lies in 2010–2019 — in particular the default value 0 never occurs. -/
theorem census_clean_year_range (census : List CensusRow)
    (hdom : ∀ r ∈ census, r.year ≤ 12) :
    (∀ s ∈ census_clean census, 2010 ≤ s.year ∧ s.year ≤ 2019 ∧ s.year ≠ 0) ∧
    (∀ r ∈ census, r.agegrp = 0 → 3 ≤ r.year →
      (yearConditions r.year).count true = 1) := by
  constructor
  · intro s hs
    rcases List.mem_map.mp hs with ⟨r, hr, rfl⟩
    rcases List.mem_filter.mp hr with ⟨hrc, hcond⟩
    have hcond' := of_decide_eq_true hcond
    have h12 := hdom r hrc
    have h3 := hcond'.2
    show 2010 ≤ recodeYear r.year ∧ recodeYear r.year ≤ 2019 ∧ recodeYear r.year ≠ 0
    rw [recodeYear_eq_add r.year h3 h12]
    omega
  · intro r hrc _ h3
    have h12 := hdom r hrc
    have : 3 ≤ r.year ∧ r.year ≤ 12 := ⟨h3, h12⟩
    rcases this with ⟨h3, h12⟩
    interval_cases h : r.year <;> rfl

/-- Concrete instantiation of `census_clean_year_range` on a two-record
table: the retained record's output year is 2010 and exactly one recode
condition fires for it. -/
theorem census_clean_year_range_witness :
    (2010 ≤ (cleanRow ⟨50, 51, 59, "Virginia", "Fairfax County", 3, 0, 1000000, []⟩).year ∧
      (cleanRow ⟨50, 51, 59, "Virginia", "Fairfax County", 3, 0, 1000000, []⟩).year ≤ 2019 ∧
      (cleanRow ⟨50, 51, 59, "Virginia", "Fairfax County", 3, 0, 1000000, []⟩).year ≠ 0) ∧
    (yearConditions 3).count true = 1 := by
  have h := census_clean_year_range
    [⟨50, 51, 59, "Virginia", "Fairfax County", 3, 0, 1000000, []⟩] (by decide)
  constructor
  · refine h.1 (cleanRow ⟨50, 51, 59, "Virginia", "Fairfax County", 3, 0, 1000000, []⟩) ?_
    refine List.mem_map.mpr ⟨⟨50, 51, 59, "Virginia", "Fairfax County", 3, 0, 1000000, []⟩, ?_, rfl⟩
    exact List.mem_filter.mpr ⟨by decide, by decide⟩
  · exact h.2 ⟨50, 51, 59, "Virginia", "Fairfax County", 3, 0, 1000000, []⟩ (by decide) rfl
      (by decide)

end CrimExp
